import Mathlib

/-!
Verification development for the SLATE backend's resilient remote-data-fetch
layer and LLM tool-orchestration layer (files `backend/main.py`,
`backend/tron_client.py`, `backend/justlend_ops.py`, `backend/llm_planner.py`).

The Python code is shallowly embedded: remote calls become oracle functions
returning `Except Err`, wall-clock time and the jitter source become explicit
parameters, Python ints become `ℤ`/`ℕ`, and Python float arithmetic is
idealised over `ℚ`.
-/

namespace Slate

/-- Model of a Python exception as caught by the backend: `msg` is `str(e)` and
`ty` is `type(e).__name__`. -/
structure Err where
  msg : String
  ty : String
deriving DecidableEq, Repr

/-- Model of the backoff delay computed at `main.py:190` / `tron_client.py:108`:
`int(base_delay_ms * (2 ** (attempt - 1)) * (1 + 0.25 * random.random()))`.
`jit attempt` models the `random.random()` draw used before retry number
`attempt + 1`, a rational in `[0, 1)`; Python's `int()` on a nonnegative float
is the floor. -/
def retryDelay (jit : ℕ → ℚ) (baseDelayMs : ℕ) (attempt : ℕ) : ℤ :=
  Int.floor ((baseDelayMs : ℚ) * 2 ^ (attempt - 1) * (1 + jit attempt / 4))

/-- The retry loop of `_with_retries` (`main.py:178-192`, `tron_client.py:76-110`),
parameterised by the outcome `fn a` of the `a`-th invocation (1-based).
`remaining` is the number of retries still allowed (`max_attempts - attempt`);
when an invocation fails with `remaining = 0` the exception is re-raised.
Returns the final outcome together with the list of sleep durations (ms). -/
def retryGo {α : Type} (fn : ℕ → Except Err α) (jit : ℕ → ℚ) (baseDelayMs : ℕ) :
    ℕ → ℕ → Except Err α × List ℤ
  | attempt, 0 =>
    match fn attempt with
    | .ok v => (.ok v, [])
    | .error e => (.error e, [])
  | attempt, remaining + 1 =>
    match fn attempt with
    | .ok v => (.ok v, [])
    | .error _ =>
      let rest := retryGo fn jit baseDelayMs (attempt + 1) remaining
      (rest.1, retryDelay jit baseDelayMs attempt :: rest.2)

/-- `_with_retries(fn, label, max_attempts, base_delay_ms)`: starts at attempt 1
and allows `max_attempts - 1` retries (on failure at attempt `a` it re-raises
iff `a ≥ max_attempts`). -/
def withRetries {α : Type} (fn : ℕ → Except Err α) (jit : ℕ → ℚ)
    (maxAttempts baseDelayMs : ℕ) : Except Err α × List ℤ :=
  retryGo fn jit baseDelayMs 1 (maxAttempts - 1)

/-- Concrete remote operation for witnesses: fails on invocations 1 and 2,
succeeds on invocation 3. -/
def exFn : ℕ → Except Err ℕ :=
  fun a => if a < 3 then .error ⟨"rate limited", "HTTPError"⟩ else .ok 42

/-- Concrete jitter source for witnesses: `random.random()` always returns 0. -/
def exJit : ℕ → ℚ := fun _ => 0

/-- Python's `round(x)` with banker's rounding (round half to even), as used by
`round(_, 2)` in the APY computations, idealised over `ℚ`. -/
def roundHalfEven (x : ℚ) : ℤ :=
  if x - Int.floor x < 1 / 2 then Int.floor x
  else if 1 / 2 < x - Int.floor x then Int.floor x + 1
  else if Even (Int.floor x) then Int.floor x else Int.floor x + 1

/-- Python's `round(x, 2)`: round to the nearest multiple of `1/100`, ties to
even. -/
def pyRound2 (x : ℚ) : ℚ := (roundHalfEven (x * 100) : ℚ) / 100

/-- `_per_block_to_apy` (`tron_client.py:58-70`, `main.py:170-174`):
`((1 + rate_per_block / 1e18) ** 7_300_000 - 1) * 100.0`, idealised over `ℚ`. -/
def perBlockToApy (ratePerBlock : ℤ) : ℚ :=
  ((1 + (ratePerBlock : ℚ) / 10 ^ 18) ^ 7300000 - 1) * 100

/-- Python list slicing `xs[:n]` for an arbitrary integer bound: a nonnegative
bound keeps the first `n` elements; a negative bound drops the last `|n|`. -/
def pyTake {α : Type} (xs : List α) (n : ℤ) : List α :=
  if 0 ≤ n then xs.take n.toNat else xs.take (xs.length - (-n).toNat)

/-- Raw per-market remote reads for the listing loop: `symbol()`,
`supplyRatePerBlock()`, `borrowRatePerBlock()`, `exchangeRateStored()`,
`totalBorrows()` and the comptroller's `markets(addr)` collateral factor. -/
structure MarketRaw where
  sym : String
  sRate : ℤ
  bRate : ℤ
  exch : ℤ
  bor : ℤ
  cFactor : ℤ
deriving DecidableEq, Repr

/-- The JustLend Unitroller address constant (`JL_UNITROLLER_MAIN`,
`main.py:65` / `tron_client.py:46` default). -/
def JL_UNITROLLER_MAIN : String := "TGjYzgCyPobsNS9n6WcbdLVR9dH7mWqFx7"

/-- `_resolve_unitroller().split('/')[-1]` in `justlend_ops.py`: the address
contains no `/`, so the split returns the address itself. -/
def opsNetwork : String := JL_UNITROLLER_MAIN

/-- Market record built by `trustlender_list_markets` (`main.py:295-306`);
includes the `collateral_factor_mantissa` key that only this variant emits. -/
structure MainEntry where
  address : String
  symbol : String
  collateralFactorMantissa : ℤ
  collateralFactorPct : ℚ
  supplyRatePerBlock : ℤ
  supplyApyPctApprox : ℚ
  borrowRatePerBlock : ℤ
  borrowApyPctApprox : ℚ
  exchangeRateMantissa : ℤ
  totalBorrowsMantissa : ℤ
deriving DecidableEq, Repr

/-- Market record built by `justlend_ops.list_markets` (`justlend_ops.py:96-106`)
and `market_detail` (`justlend_ops.py:172-182`). -/
structure MarketEntry where
  address : String
  symbol : String
  collateralFactorPct : ℚ
  supplyRatePerBlock : ℤ
  supplyApyPctApprox : ℚ
  borrowRatePerBlock : ℤ
  borrowApyPctApprox : ℚ
  exchangeRateMantissa : ℤ
  totalBorrowsMantissa : ℤ
deriving DecidableEq, Repr

/-- The `entry` dict built at `main.py:295-306` from one market's raw reads. -/
def mkMainEntry (addr : String) (r : MarketRaw) : MainEntry :=
  { address := addr
    symbol := r.sym
    collateralFactorMantissa := r.cFactor
    collateralFactorPct := (r.cFactor : ℚ) / 10 ^ 16
    supplyRatePerBlock := r.sRate
    supplyApyPctApprox := pyRound2 (perBlockToApy r.sRate)
    borrowRatePerBlock := r.bRate
    borrowApyPctApprox := pyRound2 (perBlockToApy r.bRate)
    exchangeRateMantissa := r.exch
    totalBorrowsMantissa := r.bor }

/-- The `market_data` dict built at `justlend_ops.py:96-106`. -/
def mkOpsEntry (addr : String) (r : MarketRaw) : MarketEntry :=
  { address := addr
    symbol := r.sym
    collateralFactorPct := (r.cFactor : ℚ) / 10 ^ 16
    supplyRatePerBlock := r.sRate
    supplyApyPctApprox := pyRound2 (perBlockToApy r.sRate)
    borrowRatePerBlock := r.bRate
    borrowApyPctApprox := pyRound2 (perBlockToApy r.bRate)
    exchangeRateMantissa := r.exch
    totalBorrowsMantissa := r.bor }

/-- Success payload of `trustlender_list_markets` (`main.py:315-320`), also the
shape stored in the cache slot. -/
structure Payload where
  network : String
  unitroller : String
  count : ℕ
  markets : List MainEntry
deriving DecidableEq, Repr

/-- `_cache_get` (`main.py:196-203`): the single process-wide slot holds
`(timestamp, payload)`; the payload is served iff `now - ts <= ttl_seconds`. -/
def cacheGet (cache : Option (ℚ × Payload)) (now ttlSeconds : ℚ) : Option Payload :=
  match cache with
  | none => none
  | some (ts, p) => if now - ts ≤ ttlSeconds then some p else none

/-- The cache-hit slicing at `main.py:233-236`: shallow-copy the cached payload,
slice `markets` to `limit` and recompute `count`. -/
def slicePayload (p : Payload) (limit : ℤ) : Payload :=
  { p with markets := pyTake p.markets limit, count := (pyTake p.markets limit).length }

/-- The per-market aggregation of the loop body at `main.py:261-313` /
`justlend_ops.py:78-113`: each address whose (retried) reads all succeed
contributes one record; a per-market failure is skipped. -/
def fetchedMarkets {β : Type} (fetch : String → Except Err MarketRaw)
    (mk : String → MarketRaw → β) (addrs : List String) : List β :=
  addrs.filterMap fun a => (fetch a).toOption.map (mk a)

instance {ε α : Type} [DecidableEq ε] [DecidableEq α] : DecidableEq (Except ε α) := fun x y =>
  match x, y with
  | .ok a, .ok b =>
    if h : a = b then .isTrue (congrArg Except.ok h)
    else .isFalse (fun hh => h (Except.ok.inj hh))
  | .ok _, .error _ => .isFalse (fun hh => Except.noConfusion hh)
  | .error _, .ok _ => .isFalse (fun hh => Except.noConfusion hh)
  | .error a, .error b =>
    if h : a = b then .isTrue (congrArg Except.error h)
    else .isFalse (fun hh => h (Except.error.inj hh))

/-- Observable outcome of one `trustlender_list_markets` call: the returned
payload (`.error e` models the caught-exception dict `{"error": ...}` of
`main.py:334-336`), whether the call was served from the cache slot, and the
cache slot after the call. -/
structure MainListOut where
  result : Except Err Payload
  fromCache : Bool
  cacheAfter : Option (ℚ × Payload)
deriving DecidableEq, Repr

/-- The `out` payload assembled at `main.py:315-320` from the per-market loop
over the (already limited) address list. -/
def freshPayload (fetch : String → Except Err MarketRaw) (addrsLtd : List String) : Payload :=
  { network := "mainnet", unitroller := JL_UNITROLLER_MAIN,
    count := (fetchedMarkets fetch mkMainEntry addrsLtd).length,
    markets := fetchedMarkets fetch mkMainEntry addrsLtd }

/-- The non-cached path of `trustlender_list_markets` (`main.py:240-336`):
fetch the address list (top-level failure is caught and returned as an error
payload, leaving the cache untouched), slice it to `limit` when `limit > 0`
(otherwise process the full list, `main.py:254-257`), aggregate per-market
records skipping failures, return the payload and overwrite the cache slot
with the same payload (`main.py:322-329`). -/
def mainListFresh (getAll : Except Err (List String))
    (fetch : String → Except Err MarketRaw)
    (cache : Option (ℚ × Payload)) (now : ℚ) (limit : ℤ) : MainListOut :=
  match getAll with
  | .error e => { result := .error e, fromCache := false, cacheAfter := cache }
  | .ok addrs =>
    let addrsLtd := if 0 < limit then pyTake addrs limit else addrs
    let payload := freshPayload fetch addrsLtd
    { result := .ok payload, fromCache := false, cacheAfter := some (now, payload) }

/-- `trustlender_list_markets` (`main.py:219-336`): default the limit when it is
`None` (`main.py:230`), serve a fresh cached payload sliced to `limit` when
`limit <= cached count` (`main.py:231-238`), otherwise run the fresh path. -/
def mainListMarkets (getAll : Except Err (List String))
    (fetch : String → Except Err MarketRaw)
    (cache : Option (ℚ × Payload)) (now : ℚ) (limitArg : Option ℤ)
    (defaultLimit : ℤ) (ttlSeconds : ℚ) : MainListOut :=
  let limit := limitArg.getD defaultLimit
  match cacheGet cache now ttlSeconds with
  | some cached =>
    if limit ≤ (cached.count : ℤ) then
      { result := .ok (slicePayload cached limit), fromCache := true, cacheAfter := cache }
    else mainListFresh getAll fetch cache now limit
  | none => mainListFresh getAll fetch cache now limit

/-- Result dict of `justlend_ops.list_markets`: the success shape
(`justlend_ops.py:115-122`) and the error shape (`justlend_ops.py:129-136`)
merged into one record with `Option` for keys present in only one shape. -/
structure OpsListResult where
  success : Bool
  network : String
  unitroller : Option String
  count : ℕ
  requestedLimit : Option ℤ
  markets : List MarketEntry
  error : Option String
  errorType : Option String
deriving DecidableEq, Repr

/-- `justlend_ops.list_markets(limit)` (`justlend_ops.py:57-136`): default the
limit to `JUSTLEND_MAX_MARKETS` when `None`, slice the address list with
Python slicing `addrs[:limit]`, aggregate per-market records skipping
failures, and catch any top-level exception into a structured
`{success: False, error, error_type}` payload. -/
def opsListMarkets (getAll : Except Err (List String))
    (fetch : String → Except Err MarketRaw)
    (limitArg : Option ℤ) (maxMarkets : ℤ) : OpsListResult :=
  let limit := limitArg.getD maxMarkets
  match getAll with
  | .error e =>
    { success := false, network := "unknown", unitroller := none, count := 0,
      requestedLimit := none, markets := [], error := some e.msg,
      errorType := some e.ty }
  | .ok addrs =>
    let markets := fetchedMarkets fetch mkOpsEntry (pyTake addrs limit)
    { success := true, network := opsNetwork,
      unitroller := some JL_UNITROLLER_MAIN, count := markets.length,
      requestedLimit := some limit, markets := markets, error := none,
      errorType := none }

/-- Raw reads fetched in `market_detail` once a symbol matches
(`justlend_ops.py:162-166`): rates, exchange rate, total borrows and
collateral factor (the symbol was fetched separately). -/
structure RatesRaw where
  sRate : ℤ
  bRate : ℤ
  exch : ℤ
  bor : ℤ
  cFactor : ℤ
deriving DecidableEq, Repr

/-- The `market` dict built at `justlend_ops.py:172-182`. -/
def detailEntry (addr sym : String) (r : RatesRaw) : MarketEntry :=
  { address := addr
    symbol := sym
    collateralFactorPct := (r.cFactor : ℚ) / 10 ^ 16
    supplyRatePerBlock := r.sRate
    supplyApyPctApprox := pyRound2 (perBlockToApy r.sRate)
    borrowRatePerBlock := r.bRate
    borrowApyPctApprox := pyRound2 (perBlockToApy r.bRate)
    exchangeRateMantissa := r.exch
    totalBorrowsMantissa := r.bor }

/-- Result dict of `justlend_ops.market_detail` (`justlend_ops.py:168-206`):
success, `MarketNotFound`, and caught-exception shapes merged with `Option`
fields. -/
structure DetailResult where
  success : Bool
  network : String
  unitroller : Option String
  market : Option MarketEntry
  error : Option String
  errorType : Option String
  symbolRequested : Option String
deriving DecidableEq, Repr

/-- Python's `str.lower()` as used in the symbol comparison
`sym.lower() == symbol.lower()` (`justlend_ops.py:161`): lower-case every
character. -/
def pyLower (s : String) : String := ⟨s.data.map Char.toLower⟩

/-- The scan loop of `market_detail` (`justlend_ops.py:152-185`): for each
address fetch its symbol (a failure here escapes to the top-level handler);
on the first case-insensitive match fetch the rates and build the record;
`ok none` means the list was exhausted without a match. -/
def detailLoop (getSym : String → Except Err String)
    (getRates : String → Except Err RatesRaw) (symbol : String) :
    List String → Except Err (Option MarketEntry)
  | [] => .ok none
  | addr :: rest =>
    match getSym addr with
    | .error e => .error e
    | .ok sym =>
      if pyLower sym = pyLower symbol then
        match getRates addr with
        | .error e => .error e
        | .ok r => .ok (some (detailEntry addr sym r))
      else detailLoop getSym getRates symbol rest

/-- `justlend_ops.market_detail(symbol)` (`justlend_ops.py:138-206`). -/
def opsMarketDetail (getAll : Except Err (List String))
    (getSym : String → Except Err String)
    (getRates : String → Except Err RatesRaw) (symbol : String) : DetailResult :=
  let fail : Err → DetailResult := fun e =>
    { success := false, network := "unknown", unitroller := none, market := none,
      error := some e.msg, errorType := some e.ty, symbolRequested := some symbol }
  match getAll with
  | .error e => fail e
  | .ok addrs =>
    match detailLoop getSym getRates symbol addrs with
    | .error e => fail e
    | .ok (some m) =>
      { success := true, network := opsNetwork,
        unitroller := some JL_UNITROLLER_MAIN, market := some m, error := none,
        errorType := none, symbolRequested := none }
    | .ok none =>
      { success := false, network := opsNetwork, unitroller := none,
        market := none,
        error := some ("Market symbol '" ++ symbol ++ "' not found on " ++
          opsNetwork ++ "."),
        errorType := some "MarketNotFound", symbolRequested := some symbol }

/-- Raw reads of one market's `getAccountSnapshot` in `user_position`
(`justlend_ops.py:230-240`), together with the separately fetched symbol. -/
structure SnapshotRaw where
  sym : String
  tokenBal : ℤ
  borrowBal : ℤ
  exch : ℤ
deriving DecidableEq, Repr

/-- One entry of the `positions` list (`justlend_ops.py:234-240`). -/
structure PositionEntry where
  jtoken : String
  symbol : String
  tokenBalanceMantissa : ℤ
  borrowBalanceMantissa : ℤ
  exchangeRateMantissa : ℤ
deriving DecidableEq, Repr

/-- Result dict of `justlend_ops.user_position` (`justlend_ops.py:248-268`). -/
structure UserPositionResult where
  success : Bool
  network : String
  address : String
  positions : List PositionEntry
  liquidityMantissa : Option ℤ
  shortfallMantissa : Option ℤ
  error : Option String
  errorType : Option String
deriving DecidableEq, Repr

/-- `justlend_ops.user_position(address)` (`justlend_ops.py:208-268`): iterate
all markets building position entries (skipping per-market failures), fetch
aggregate liquidity/shortfall once, and catch any top-level exception into a
structured error payload. -/
def opsUserPosition (getAll : Except Err (List String))
    (getSnapshot : String → Except Err SnapshotRaw)
    (getLiquidity : Except Err (ℤ × ℤ)) (address : String) : UserPositionResult :=
  let fail : Err → UserPositionResult := fun e =>
    { success := false, network := "unknown", address := address, positions := [],
      liquidityMantissa := none, shortfallMantissa := none, error := some e.msg,
      errorType := some e.ty }
  match getAll with
  | .error e => fail e
  | .ok addrs =>
    let positions := addrs.filterMap fun a => (getSnapshot a).toOption.map fun s =>
      ({ jtoken := a, symbol := s.sym, tokenBalanceMantissa := s.tokenBal,
         borrowBalanceMantissa := s.borrowBal, exchangeRateMantissa := s.exch }
        : PositionEntry)
    match getLiquidity with
    | .error e => fail e
    | .ok (liq, short) =>
      { success := true, network := opsNetwork, address := address,
        positions := positions, liquidityMantissa := some liq,
        shortfallMantissa := some short, error := none, errorType := none }

/-- One item of a parsed planner response (`llm_planner.py:284-298`): either a
JSON object with optional `"type"` and `"args"` members, or a non-object JSON
value.  Argument dicts are modelled as association lists; an absent or falsy
`"args"` member is `none`. -/
inductive JItem where
  | dict (ty : Option String) (args : Option (List (String × String)))
  | nondict
deriving DecidableEq, Repr

/-- The keys of `TOOL_SPEC` (`llm_planner.py:17-27`), the fixed tool catalog. -/
def TOOL_SPEC_keys : List String :=
  ["wallet_check_tronlink", "wallet_connect", "wallet_fetch_balance",
   "trustlender_list_markets", "trustlender_market_detail",
   "trustlender_user_position"]

/-- Validation of a single plan item (`llm_planner.py:284-298`): skip non-dict
items; skip items whose `"type"` is absent or not a key of `TOOL_SPEC`; keep
`{"type": t, "args": item.get("args") or {}}` otherwise. -/
def validateItem : JItem → Option (String × List (String × String))
  | .nondict => none
  | .dict ty args =>
    match ty with
    | none => none
    | some t => if t ∈ TOOL_SPEC_keys then some (t, args.getD []) else none

/-- The sanitisation loop of `plan_with_llm` (`llm_planner.py:283-301`) over a
parsed list response. -/
def validatePlan (items : List JItem) : List (String × List (String × String)) :=
  items.filterMap validateItem

/-- Tool-result dict as inspected by `decide_widget` (`llm_planner.py:43-115`):
only the members the selector reads are modelled, each as its truthiness
(`r.ok` models `tool_result.get("ok")` being truthy, `r.markets ≠ []` models
`tool_result.get("markets")` being truthy, and `r.market.isSome` a present
non-empty `"market"` member). -/
structure RDict where
  ok : Bool
  tronLinkPresent : Bool
  tronWebInjected : Bool
  success : Bool
  markets : List MarketEntry
  market : Option MarketEntry
deriving DecidableEq, Repr

/-- The `tool_result` argument of `decide_widget`: `invalid` covers a falsy or
non-dict value (`llm_planner.py:60`). -/
inductive ToolResult where
  | invalid
  | dict (r : RDict)
deriving DecidableEq, Repr

/-- The `data` member of the widget descriptor: the raw tool result for wallet
widgets, `{"view": v, "payload": r}` for JustLend widgets, `None` for idle. -/
inductive WData where
  | payload (r : RDict)
  | view (v : String) (r : RDict)
  | nodata
deriving DecidableEq, Repr

/-- The `{type, data}` widget descriptor returned by `decide_widget`. -/
structure Widget where
  ty : String
  data : WData
deriving DecidableEq, Repr

/-- `decide_widget(tool_used, tool_result, session_id)`
(`llm_planner.py:43-115`).  `session_id` is only logged, so it is not a
parameter of the model. -/
def decide_widget (toolUsed : String) (toolResult : ToolResult) : Widget :=
  let idle : Widget := { ty := "idle", data := .nodata }
  match toolResult with
  | .invalid => idle
  | .dict r =>
    if (toolUsed = "wallet_connect" ∨ toolUsed = "wallet_fetch_balance") ∧ r.ok then
      { ty := "wallet", data := .payload r }
    else if toolUsed = "wallet_check_tronlink" then
      if r.tronLinkPresent ∧ r.tronWebInjected then { ty := "wallet", data := .payload r }
      else idle
    else if toolUsed = "trustlender_list_markets" then
      if r.success ∧ r.markets ≠ [] then { ty := "justlend", data := .view "list" r }
      else idle
    else if toolUsed = "trustlender_market_detail" then
      if r.success ∧ r.market.isSome then { ty := "justlend", data := .view "detail" r }
      else idle
    else if toolUsed = "trustlender_user_position" then
      if r.success then { ty := "justlend", data := .view "user" r }
      else idle
    else idle

/-- Raw market reads with all mantissa values zero, for concrete witnesses. -/
def rawZero : MarketRaw :=
  { sym := "JTRX", sRate := 0, bRate := 0, exch := 0, bor := 0, cFactor := 0 }

/-- A market entry with all numeric fields zero, for concrete witnesses. -/
def entryZero : MarketEntry :=
  { address := "Taddr", symbol := "JTRX", collateralFactorPct := 0,
    supplyRatePerBlock := 0, supplyApyPctApprox := 0, borrowRatePerBlock := 0,
    borrowApyPctApprox := 0, exchangeRateMantissa := 0, totalBorrowsMantissa := 0 }

/-- A successful `trustlender_list_markets` tool-result dict with one market,
for the widget-selector counterexample. -/
def exListRDict : RDict :=
  { ok := false, tronLinkPresent := false, tronWebInjected := false,
    success := true, markets := [entryZero], market := none }

/-- The successful listing tool result wrapped for `decide_widget`. -/
def exListToolResult : ToolResult := .dict exListRDict

/-- Six market addresses, for cache witnesses. -/
def exAddrs6 : List String := ["Ta1", "Ta2", "Ta3", "Ta4", "Ta5", "Ta6"]

/-- A per-market fetch oracle that always succeeds, for witnesses. -/
def exFetchOk : String → Except Err MarketRaw := fun _ => .ok rawZero

/-- A concrete remote error, for witnesses. -/
def exRemoteErr : Err := ⟨"connection refused", "ConnectionError"⟩

/-- A `getAllMarkets` oracle that always fails, for witnesses. -/
def exGetAllErr : Except Err (List String) := .error exRemoteErr

/-- A per-market fetch oracle that always fails, for witnesses. -/
def exFetchErr : String → Except Err MarketRaw := fun _ => .error exRemoteErr

/-- A per-market fetch oracle failing only for address `"Tbad"`, for the
partial-failure witness. -/
def exFetchOneBad : String → Except Err MarketRaw :=
  fun a => if a = "Tbad" then .error exRemoteErr else .ok rawZero

/-- Zero rates payload for witnesses. -/
def ratesZero : RatesRaw := ⟨0, 0, 0, 0, 0⟩

/-- A symbol oracle for witnesses: address `"Tb"` is market `JUSDT`, every
other address is market `JBTC`. -/
def exGetSym : String → Except Err String :=
  fun a => if a = "Tb" then .ok "JUSDT" else .ok "JBTC"

/-- A rates oracle that always succeeds, for witnesses. -/
def exGetRates : String → Except Err RatesRaw := fun _ => .ok ratesZero

/-- A symbol oracle that always fails, for witnesses. -/
def exGetSymErr : String → Except Err String := fun _ => .error exRemoteErr

/-- A snapshot oracle that always succeeds, for witnesses. -/
def exGetSnapshot : String → Except Err SnapshotRaw := fun _ => .ok ⟨"JTRX", 0, 0, 0⟩

/-- An account-liquidity oracle that always fails, for witnesses. -/
def exGetLiquidityErr : Except Err (ℤ × ℤ) := .error exRemoteErr

/-- The `count` of a successful `trustlender_list_markets` payload, `none` on
the error payload. -/
def mainResultCount (o : MainListOut) : Option ℕ := o.result.toOption.map Payload.count

theorem retryGo_spec {α : Type} (fn : ℕ → Except Err α) (jit : ℕ → ℚ)
    (baseDelayMs : ℕ) (v : α) :
    ∀ (remaining attempt : ℕ),
      (∀ a, attempt ≤ a → a < attempt + remaining → ∃ e, fn a = Except.error e) →
      fn (attempt + remaining) = Except.ok v →
      retryGo fn jit baseDelayMs attempt remaining =
        (Except.ok v,
          (List.range remaining).map (fun i => retryDelay jit baseDelayMs (attempt + i))) := by
  intro remaining
  induction remaining with
  | zero =>
    intro attempt _ hok
    simp only [Nat.add_zero] at hok
    simp [retryGo, hok]
  | succ n ih =>
    intro attempt hfail hok
    obtain ⟨e, he⟩ := hfail attempt le_rfl (by omega)
    have hrest := ih (attempt + 1)
      (fun a h1 h2 => hfail a (by omega) (by omega))
      (by rw [show attempt + 1 + n = attempt + (n + 1) by omega]; exact hok)
    have hlist : (List.range (n + 1)).map (fun i => retryDelay jit baseDelayMs (attempt + i)) =
        retryDelay jit baseDelayMs attempt ::
          (List.range n).map (fun i => retryDelay jit baseDelayMs (attempt + 1 + i)) := by
      rw [List.range_succ_eq_map]
      simp only [List.map_cons, Nat.add_zero, List.map_map]
      refine congrArg _ ?_
      apply List.map_congr_left
      intro i _
      simp only [Function.comp_apply]
      congr 1
      omega
    simp only [retryGo, he, hrest, hlist]

/-- C1: a zero-argument remote operation that raises on each of its first
`max_attempts - 1` invocations and succeeds on invocation `max_attempts` makes
`_with_retries` return the successful result after exactly `max_attempts - 1`
sleeps, the `k`-th sleep (0-based index `k`) lasting at least
`base_delay_ms * 2^k` milliseconds; the jitter draw lies in `[0, 1)`, so the
multiplicative factor `1 + jitter/4` lies in `[1, 1.25)`. -/
theorem withRetries_failThenSucceed {α : Type} (fn : ℕ → Except Err α) (jit : ℕ → ℚ)
    (maxAttempts baseDelayMs : ℕ) (v : α)
    (hmax : 1 ≤ maxAttempts)
    (hjit : ∀ k, 0 ≤ jit k ∧ jit k < 1)
    (hfail : ∀ a, 1 ≤ a → a < maxAttempts → ∃ e, fn a = Except.error e)
    (hok : fn maxAttempts = Except.ok v) :
    (withRetries fn jit maxAttempts baseDelayMs).1 = Except.ok v ∧
    (withRetries fn jit maxAttempts baseDelayMs).2.length = maxAttempts - 1 ∧
    ∀ k, k < maxAttempts - 1 →
      (baseDelayMs : ℤ) * 2 ^ k ≤ (withRetries fn jit maxAttempts baseDelayMs).2.getD k 0 := by
  have hspec := retryGo_spec fn jit baseDelayMs v (maxAttempts - 1) 1
    (fun a h1 h2 => hfail a h1 (by omega))
    (by rw [show 1 + (maxAttempts - 1) = maxAttempts by omega]; exact hok)
  unfold withRetries
  rw [hspec]
  refine ⟨rfl, by simp, ?_⟩
  intro k hk
  have hget : ((List.range (maxAttempts - 1)).map
      (fun i => retryDelay jit baseDelayMs (1 + i))).getD k 0 =
      retryDelay jit baseDelayMs (1 + k) := by
    rw [List.getD_eq_getElem?_getD, List.getElem?_map, List.getElem?_range hk]
    rfl
  rw [hget]
  unfold retryDelay
  rw [Int.le_floor]
  have h1k : 1 + k - 1 = k := by omega
  rw [h1k]
  have hfac : (1 : ℚ) ≤ 1 + jit (1 + k) / 4 := by
    have := (hjit (1 + k)).1
    linarith
  have hbase : (0 : ℚ) ≤ (baseDelayMs : ℚ) * 2 ^ k := by positivity
  have hcast : (((baseDelayMs : ℤ) * 2 ^ k : ℤ) : ℚ) = (baseDelayMs : ℚ) * 2 ^ k := by
    push_cast
    ring
  rw [hcast]
  exact le_mul_of_one_le_right hbase hfac

/-- Witness for C1 at `max_attempts = 3`, `base_delay_ms = 250`: two failures
then success on attempt 3, two sleeps each at least `250 * 2^k` ms. -/
theorem withRetries_failThenSucceed_witness :
    (withRetries exFn exJit 3 250).1 = Except.ok 42 ∧
    (withRetries exFn exJit 3 250).2.length = 3 - 1 ∧
    ∀ k, k < 3 - 1 →
      (250 : ℤ) * 2 ^ k ≤ (withRetries exFn exJit 3 250).2.getD k 0 :=
  withRetries_failThenSucceed exFn exJit 3 250 42 (by norm_num)
    (fun k => ⟨by norm_num [exJit], by norm_num [exJit]⟩)
    (fun a h1 h2 => ⟨⟨"rate limited", "HTTPError"⟩, by
      have : a < 3 := h2
      simp [exFn, this]⟩)
    (by simp [exFn])

theorem fetchedMarkets_length_of_ok {β : Type} (fetch : String → Except Err MarketRaw)
    (mk : String → MarketRaw → β) :
    ∀ l : List String, (∀ a ∈ l, ∃ r, fetch a = .ok r) →
      (fetchedMarkets fetch mk l).length = l.length
  | [], _ => rfl
  | x :: xs, h => by
    obtain ⟨r, hr⟩ := h x (by simp)
    have hxs := fetchedMarkets_length_of_ok fetch mk xs (fun a ha => h a (by simp [ha]))
    simp only [fetchedMarkets, List.filterMap_cons, hr, Except.toOption, Option.map_some',
      List.length_cons] at hxs ⊢
    omega

theorem pyTake_nonneg {α : Type} (xs : List α) (n : ℤ) (h : 0 ≤ n) :
    pyTake xs n = xs.take n.toNat := by
  simp [pyTake, h]

theorem mainListFresh_fromCache (getAll : Except Err (List String))
    (fetch : String → Except Err MarketRaw) (cache : Option (ℚ × Payload))
    (now : ℚ) (limit : ℤ) : (mainListFresh getAll fetch cache now limit).fromCache = false := by
  cases getAll <;> rfl

/-- C2: with a fresh cache populated by a fully successful `list_markets(6)`
call, a second `list_markets(6)` within the TTL window is served from the
cache slot (regardless of the remote oracles) and returns the identical
payload; a `list_markets(10)` issued in the same window is a cache miss that
runs the fresh-fetch path; and in general a request is served from cache
exactly when the slot is within `ttl_seconds` of `now` and the (defaulted)
`limit` is at most the cached `count`, in which case the cached markets list
is sliced to `limit`. -/
theorem mainListMarkets_cache_policy
    (getAll getAll2 : Except Err (List String))
    (fetch fetch2 : String → Except Err MarketRaw)
    (t0 t1 : ℚ) (d : ℤ) (ttl : ℚ) (addrs : List String)
    (hga : getAll = .ok addrs) (hlen : 6 ≤ addrs.length)
    (hfetch : ∀ a ∈ addrs.take 6, ∃ r, fetch a = .ok r)
    (httl : t1 - t0 ≤ ttl) :
    (mainListMarkets getAll fetch none t0 (some 6) d ttl).fromCache = false ∧
    (mainListMarkets getAll2 fetch2
      (mainListMarkets getAll fetch none t0 (some 6) d ttl).cacheAfter
      t1 (some 6) d ttl).fromCache = true ∧
    (mainListMarkets getAll2 fetch2
      (mainListMarkets getAll fetch none t0 (some 6) d ttl).cacheAfter
      t1 (some 6) d ttl).result =
      (mainListMarkets getAll fetch none t0 (some 6) d ttl).result ∧
    (mainListMarkets getAll2 fetch2
      (mainListMarkets getAll fetch none t0 (some 6) d ttl).cacheAfter
      t1 (some 10) d ttl).fromCache = false ∧
    (mainListMarkets getAll2 fetch2
      (mainListMarkets getAll fetch none t0 (some 6) d ttl).cacheAfter
      t1 (some 10) d ttl) =
      mainListFresh getAll2 fetch2
        (mainListMarkets getAll fetch none t0 (some 6) d ttl).cacheAfter t1 10 ∧
    (∀ (cache : Option (ℚ × Payload)) (now : ℚ) (lim : Option ℤ),
      ((mainListMarkets getAll2 fetch2 cache now lim d ttl).fromCache = true ↔
        ∃ ts p, cache = some (ts, p) ∧ now - ts ≤ ttl ∧ lim.getD d ≤ (p.count : ℤ)) ∧
      ∀ ts p, cache = some (ts, p) → now - ts ≤ ttl → lim.getD d ≤ (p.count : ℤ) →
        (mainListMarkets getAll2 fetch2 cache now lim d ttl).result =
          .ok (slicePayload p (lim.getD d))) := by
  subst hga
  have hpy6 : pyTake addrs 6 = addrs.take 6 := by
    simp [pyTake]
  have hmlen : (fetchedMarkets fetch mkMainEntry (pyTake addrs 6)).length = 6 := by
    rw [hpy6, fetchedMarkets_length_of_ok fetch mkMainEntry _ hfetch]
    simp [List.length_take]
    omega
  have h1 : mainListMarkets (.ok addrs) fetch none t0 (some 6) d ttl =
      { result := .ok (freshPayload fetch (pyTake addrs 6)),
        fromCache := false,
        cacheAfter := some (t0, freshPayload fetch (pyTake addrs 6)) } := by
    simp [mainListMarkets, cacheGet, mainListFresh]
  have hcount : (freshPayload fetch (pyTake addrs 6)).count = 6 := hmlen
  have hslice : slicePayload (freshPayload fetch (pyTake addrs 6)) 6 =
      freshPayload fetch (pyTake addrs 6) := by
    have htake : pyTake (fetchedMarkets fetch mkMainEntry (pyTake addrs 6)) 6 =
        fetchedMarkets fetch mkMainEntry (pyTake addrs 6) := by
      rw [pyTake_nonneg _ _ (by norm_num)]
      apply List.take_of_length_le
      omega
    simp [slicePayload, freshPayload, htake, hmlen]
  refine ⟨?_, ?_, ?_, ?_, ?_, ?_⟩
  · rw [h1]
  · rw [h1]
    simp [mainListMarkets, cacheGet, httl, hcount]
  · rw [h1]
    simp [mainListMarkets, cacheGet, httl, hcount, hslice]
  · rw [h1]
    simp [mainListMarkets, cacheGet, httl, hcount, mainListFresh_fromCache]
  · rw [h1]
    simp [mainListMarkets, cacheGet, httl, hcount]
  · intro cache now lim
    constructor
    · cases cache with
      | none => simp [mainListMarkets, cacheGet, mainListFresh_fromCache]
      | some c =>
        obtain ⟨ts, p⟩ := c
        by_cases htt : now - ts ≤ ttl
        · have hcg : cacheGet (some (ts, p)) now ttl = some p := by
            simp [cacheGet, htt]
          by_cases hle : lim.getD d ≤ (p.count : ℤ)
          · simp only [mainListMarkets, hcg, if_pos hle]
            constructor
            · intro _
              exact ⟨ts, p, rfl, htt, hle⟩
            · intro _
              trivial
          · simp only [mainListMarkets, hcg, if_neg hle, mainListFresh_fromCache]
            constructor
            · intro hfc
              simp at hfc
            · rintro ⟨ts', p', heq, htt', hle'⟩
              rw [Option.some.injEq, Prod.mk.injEq] at heq
              obtain ⟨hts, hp⟩ := heq
              subst hts
              subst hp
              exact absurd hle' hle
        · have hcg : cacheGet (some (ts, p)) now ttl = none := by
            simp [cacheGet, htt]
          simp only [mainListMarkets, hcg, mainListFresh_fromCache]
          constructor
          · intro hfc
            simp at hfc
          · rintro ⟨ts', p', heq, htt', hle'⟩
            rw [Option.some.injEq, Prod.mk.injEq] at heq
            obtain ⟨hts, hp⟩ := heq
            subst hts
            subst hp
            exact absurd htt' htt
    · intro ts p hc htt hle
      subst hc
      simp [mainListMarkets, cacheGet, htt, hle]

/-- Witness for C2: six markets all fetched successfully at time 0; at time 1
with TTL 120 the `limit = 6` request is served from cache with the identical
payload even though the second call's remote oracles always fail, and the
`limit = 10` request misses. -/
theorem mainListMarkets_cache_policy_witness :
    (mainListMarkets (.ok exAddrs6) exFetchOk none 0 (some 6) 6 120).fromCache = false ∧
    (mainListMarkets exGetAllErr exFetchErr
      (mainListMarkets (.ok exAddrs6) exFetchOk none 0 (some 6) 6 120).cacheAfter
      1 (some 6) 6 120).fromCache = true ∧
    (mainListMarkets exGetAllErr exFetchErr
      (mainListMarkets (.ok exAddrs6) exFetchOk none 0 (some 6) 6 120).cacheAfter
      1 (some 6) 6 120).result =
      (mainListMarkets (.ok exAddrs6) exFetchOk none 0 (some 6) 6 120).result ∧
    (mainListMarkets exGetAllErr exFetchErr
      (mainListMarkets (.ok exAddrs6) exFetchOk none 0 (some 6) 6 120).cacheAfter
      1 (some 10) 6 120).fromCache = false ∧
    (mainListMarkets exGetAllErr exFetchErr
      (mainListMarkets (.ok exAddrs6) exFetchOk none 0 (some 6) 6 120).cacheAfter
      1 (some 10) 6 120) =
      mainListFresh exGetAllErr exFetchErr
        (mainListMarkets (.ok exAddrs6) exFetchOk none 0 (some 6) 6 120).cacheAfter 1 10 ∧
    (∀ (cache : Option (ℚ × Payload)) (now : ℚ) (lim : Option ℤ),
      ((mainListMarkets exGetAllErr exFetchErr cache now lim 6 120).fromCache = true ↔
        ∃ ts p, cache = some (ts, p) ∧ now - ts ≤ 120 ∧ lim.getD 6 ≤ (p.count : ℤ)) ∧
      ∀ ts p, cache = some (ts, p) → now - ts ≤ 120 → lim.getD 6 ≤ (p.count : ℤ) →
        (mainListMarkets exGetAllErr exFetchErr cache now lim 6 120).result =
          .ok (slicePayload p (lim.getD 6))) :=
  mainListMarkets_cache_policy (.ok exAddrs6) exGetAllErr exFetchOk exFetchErr
    0 1 6 120 exAddrs6 rfl (by norm_num [exAddrs6])
    (fun a _ => ⟨rawZero, rfl⟩) (by norm_num)

/-- C3: in a `list_markets` batch over `N` market addresses in which exactly
one address fails persistently (its per-market fetch raises out of its
retries) and the other `N - 1` succeed, the tool returns a success payload
with `N - 1` market records and `count = N - 1`; the failure is absorbed by
the per-market skip, so no exception reaches the caller. -/
theorem opsListMarkets_partial_failure (l1 l2 : List String) (bad : String)
    (fetch : String → Except Err MarketRaw) (e : Err)
    (hbad : fetch bad = .error e)
    (h1 : ∀ a ∈ l1, ∃ r, fetch a = .ok r)
    (h2 : ∀ a ∈ l2, ∃ r, fetch a = .ok r) :
    (opsListMarkets (.ok (l1 ++ bad :: l2)) fetch
      (some ((l1 ++ bad :: l2).length : ℤ)) 4).success = true ∧
    (opsListMarkets (.ok (l1 ++ bad :: l2)) fetch
      (some ((l1 ++ bad :: l2).length : ℤ)) 4).markets.length =
      (l1 ++ bad :: l2).length - 1 ∧
    (opsListMarkets (.ok (l1 ++ bad :: l2)) fetch
      (some ((l1 ++ bad :: l2).length : ℤ)) 4).count =
      (l1 ++ bad :: l2).length - 1 := by
  have hpt : pyTake (l1 ++ bad :: l2) ((l1 ++ bad :: l2).length : ℤ) = l1 ++ bad :: l2 := by
    rw [pyTake_nonneg _ _ (Int.natCast_nonneg _)]
    apply List.take_of_length_le
    omega
  have hsplit : fetchedMarkets fetch mkOpsEntry (l1 ++ bad :: l2) =
      fetchedMarkets fetch mkOpsEntry l1 ++ fetchedMarkets fetch mkOpsEntry l2 := by
    simp [fetchedMarkets, List.filterMap_append, List.filterMap_cons, hbad, Except.toOption]
  have hlen : (fetchedMarkets fetch mkOpsEntry (l1 ++ bad :: l2)).length =
      l1.length + l2.length := by
    rw [hsplit, List.length_append, fetchedMarkets_length_of_ok fetch mkOpsEntry l1 h1,
      fetchedMarkets_length_of_ok fetch mkOpsEntry l2 h2]
  refine ⟨rfl, ?_, ?_⟩ <;>
    · simp only [opsListMarkets, Option.getD, hpt, hlen]
      simp only [List.length_append, List.length_cons]
      omega

/-- Witness for C3: three markets, the middle one failing persistently — the
batch returns success with two records. -/
theorem opsListMarkets_partial_failure_witness :
    (opsListMarkets (.ok (["Ta1"] ++ "Tbad" :: ["Ta3"])) exFetchOneBad
      (some ((["Ta1"] ++ "Tbad" :: ["Ta3"]).length : ℤ)) 4).success = true ∧
    (opsListMarkets (.ok (["Ta1"] ++ "Tbad" :: ["Ta3"])) exFetchOneBad
      (some ((["Ta1"] ++ "Tbad" :: ["Ta3"]).length : ℤ)) 4).markets.length =
      (["Ta1"] ++ "Tbad" :: ["Ta3"]).length - 1 ∧
    (opsListMarkets (.ok (["Ta1"] ++ "Tbad" :: ["Ta3"])) exFetchOneBad
      (some ((["Ta1"] ++ "Tbad" :: ["Ta3"]).length : ℤ)) 4).count =
      (["Ta1"] ++ "Tbad" :: ["Ta3"]).length - 1 :=
  opsListMarkets_partial_failure ["Ta1"] ["Ta3"] "Tbad" exFetchOneBad exRemoteErr rfl
    (fun a ha => ⟨rawZero, by
      simp only [List.mem_singleton] at ha
      subst ha
      rfl⟩)
    (fun a ha => ⟨rawZero, by
      simp only [List.mem_singleton] at ha
      subst ha
      rfl⟩)

/-- C4: a remote-layer exception escaping the retry wrapper at the top level
of `list_markets`, `market_detail` or `user_position` (the `getAllMarkets`
read for all three, the non-skip-protected scan reads of `market_detail`,
the `getAccountLiquidity` read of `user_position`) makes the tool return a
structured payload with `success = false`, the error string and the error
type; the tools are modelled as total functions, so no exception propagates
to the caller. -/
theorem ops_tools_structured_failure (e : Err)
    (fetch : String → Except Err MarketRaw) (limitArg : Option ℤ) (maxMarkets : ℤ)
    (getSym : String → Except Err String) (getRates : String → Except Err RatesRaw)
    (symbol : String) (getSnapshot : String → Except Err SnapshotRaw)
    (getLiquidity : Except Err (ℤ × ℤ)) (address : String) :
    ((opsListMarkets (.error e) fetch limitArg maxMarkets).success = false ∧
      (opsListMarkets (.error e) fetch limitArg maxMarkets).error = some e.msg ∧
      (opsListMarkets (.error e) fetch limitArg maxMarkets).errorType = some e.ty) ∧
    ((opsMarketDetail (.error e) getSym getRates symbol).success = false ∧
      (opsMarketDetail (.error e) getSym getRates symbol).error = some e.msg ∧
      (opsMarketDetail (.error e) getSym getRates symbol).errorType = some e.ty) ∧
    ((opsUserPosition (.error e) getSnapshot getLiquidity address).success = false ∧
      (opsUserPosition (.error e) getSnapshot getLiquidity address).error = some e.msg ∧
      (opsUserPosition (.error e) getSnapshot getLiquidity address).errorType = some e.ty) ∧
    (∀ addrs, detailLoop getSym getRates symbol addrs = .error e →
      (opsMarketDetail (.ok addrs) getSym getRates symbol).success = false ∧
      (opsMarketDetail (.ok addrs) getSym getRates symbol).error = some e.msg ∧
      (opsMarketDetail (.ok addrs) getSym getRates symbol).errorType = some e.ty) ∧
    (∀ addrs, getLiquidity = .error e →
      (opsUserPosition (.ok addrs) getSnapshot getLiquidity address).success = false ∧
      (opsUserPosition (.ok addrs) getSnapshot getLiquidity address).error = some e.msg ∧
      (opsUserPosition (.ok addrs) getSnapshot getLiquidity address).errorType = some e.ty) := by
  refine ⟨⟨rfl, rfl, rfl⟩, ⟨rfl, rfl, rfl⟩, ⟨rfl, rfl, rfl⟩, ?_, ?_⟩
  · intro addrs h
    simp [opsMarketDetail, h]
  · intro addrs h
    simp [opsUserPosition, h]

/-- Witness for C4: a concrete remote error, a symbol oracle that fails mid
scan and a failing liquidity oracle all surface as structured error
payloads. -/
theorem ops_tools_structured_failure_witness :
    (detailLoop exGetSymErr exGetRates "jusdt" ["Ta"] = .error exRemoteErr) ∧
    (exGetLiquidityErr = .error exRemoteErr) ∧
    ((opsListMarkets (.error exRemoteErr) exFetchOk (some 6) 4).success = false ∧
      (opsListMarkets (.error exRemoteErr) exFetchOk (some 6) 4).error =
        some exRemoteErr.msg ∧
      (opsListMarkets (.error exRemoteErr) exFetchOk (some 6) 4).errorType =
        some exRemoteErr.ty) ∧
    ((opsMarketDetail (.ok ["Ta"]) exGetSymErr exGetRates "jusdt").success = false ∧
      (opsMarketDetail (.ok ["Ta"]) exGetSymErr exGetRates "jusdt").error =
        some exRemoteErr.msg ∧
      (opsMarketDetail (.ok ["Ta"]) exGetSymErr exGetRates "jusdt").errorType =
        some exRemoteErr.ty) ∧
    ((opsUserPosition (.ok ["Ta"]) exGetSnapshot exGetLiquidityErr "Tuser").success = false ∧
      (opsUserPosition (.ok ["Ta"]) exGetSnapshot exGetLiquidityErr "Tuser").error =
        some exRemoteErr.msg ∧
      (opsUserPosition (.ok ["Ta"]) exGetSnapshot exGetLiquidityErr "Tuser").errorType =
        some exRemoteErr.ty) :=
  ⟨rfl, rfl,
    (ops_tools_structured_failure exRemoteErr exFetchOk (some 6) 4 exGetSymErr exGetRates
      "jusdt" exGetSnapshot exGetLiquidityErr "Tuser").1,
    (ops_tools_structured_failure exRemoteErr exFetchOk (some 6) 4 exGetSymErr exGetRates
      "jusdt" exGetSnapshot exGetLiquidityErr "Tuser").2.2.2.1 ["Ta"] rfl,
    (ops_tools_structured_failure exRemoteErr exFetchOk (some 6) 4 exGetSymErr exGetRates
      "jusdt" exGetSnapshot exGetLiquidityErr "Tuser").2.2.2.2 ["Ta"] rfl⟩

/-- C5 counterexample: a successful `list_markets` call with the explicit
negative limit `-1` over two markets returns `count = 1`, and `1 ≤ -1` is
false, so `count ≤ limit` does not hold for every successful call. -/
theorem opsListMarkets_negative_limit_counterexample :
    (opsListMarkets (.ok ["Ta1", "Ta2"]) exFetchOk (some (-1)) 4).success = true ∧
    (opsListMarkets (.ok ["Ta1", "Ta2"]) exFetchOk (some (-1)) 4).requestedLimit =
      some (-1) ∧
    (opsListMarkets (.ok ["Ta1", "Ta2"]) exFetchOk (some (-1)) 4).count = 1 ∧
    ¬(((opsListMarkets (.ok ["Ta1", "Ta2"]) exFetchOk (some (-1)) 4).count : ℤ) ≤ -1) := by
  refine ⟨rfl, rfl, rfl, ?_⟩
  have hc : (opsListMarkets (.ok ["Ta1", "Ta2"]) exFetchOk (some (-1)) 4).count = 1 := rfl
  rw [hc]
  decide

/-- C5 (amended with `0 ≤ limit`, which the counterexample shows is needed):
every successful `list_markets` call with a nonnegative effective limit has
`markets.length = count ≤ limit`, and every returned record's approximate
APY fields are exactly `round(((1 + rate/1e18)^7300000 - 1)*100, 2)` of that
record's stored per-block rates. -/
theorem opsListMarkets_count_bound_and_apy
    (getAll : Except Err (List String)) (fetch : String → Except Err MarketRaw)
    (limitArg : Option ℤ) (maxMarkets : ℤ)
    (hlim : 0 ≤ limitArg.getD maxMarkets)
    (hsucc : (opsListMarkets getAll fetch limitArg maxMarkets).success = true) :
    (opsListMarkets getAll fetch limitArg maxMarkets).markets.length =
      (opsListMarkets getAll fetch limitArg maxMarkets).count ∧
    ((opsListMarkets getAll fetch limitArg maxMarkets).count : ℤ) ≤
      limitArg.getD maxMarkets ∧
    ∀ m ∈ (opsListMarkets getAll fetch limitArg maxMarkets).markets,
      m.supplyApyPctApprox = pyRound2 (perBlockToApy m.supplyRatePerBlock) ∧
      m.borrowApyPctApprox = pyRound2 (perBlockToApy m.borrowRatePerBlock) := by
  cases getAll with
  | error e => simp [opsListMarkets] at hsucc
  | ok addrs =>
    refine ⟨rfl, ?_, ?_⟩
    · have h1 : (opsListMarkets (.ok addrs) fetch limitArg maxMarkets).count =
          (fetchedMarkets fetch mkOpsEntry (pyTake addrs (limitArg.getD maxMarkets))).length :=
        rfl
      have h2 : (fetchedMarkets fetch mkOpsEntry
          (pyTake addrs (limitArg.getD maxMarkets))).length ≤
          (pyTake addrs (limitArg.getD maxMarkets)).length :=
        List.length_filterMap_le _ _
      have h3 : (pyTake addrs (limitArg.getD maxMarkets)).length ≤
          (limitArg.getD maxMarkets).toNat := by
        rw [pyTake_nonneg _ _ hlim]
        simp [List.length_take]
      rw [h1]
      omega
    · intro m hm
      have hm' : m ∈ fetchedMarkets fetch mkOpsEntry
          (pyTake addrs (limitArg.getD maxMarkets)) := hm
      rw [fetchedMarkets, List.mem_filterMap] at hm'
      obtain ⟨a, _, hfa⟩ := hm'
      cases hf : fetch a with
      | error e => rw [hf] at hfa; simp [Except.toOption] at hfa
      | ok r =>
        rw [hf] at hfa
        simp only [Except.toOption, Option.map_some'] at hfa
        rw [Option.some.injEq] at hfa
        subst hfa
        exact ⟨rfl, rfl⟩

/-- Witness for C5 (amended): one market with zero rates at limit 1. -/
theorem opsListMarkets_count_bound_and_apy_witness :
    (opsListMarkets (.ok ["Ta1"]) exFetchOk (some 1) 4).markets.length =
      (opsListMarkets (.ok ["Ta1"]) exFetchOk (some 1) 4).count ∧
    (((opsListMarkets (.ok ["Ta1"]) exFetchOk (some 1) 4).count : ℤ)) ≤
      (some (1 : ℤ)).getD 4 ∧
    ∀ m ∈ (opsListMarkets (.ok ["Ta1"]) exFetchOk (some 1) 4).markets,
      m.supplyApyPctApprox = pyRound2 (perBlockToApy m.supplyRatePerBlock) ∧
      m.borrowApyPctApprox = pyRound2 (perBlockToApy m.borrowRatePerBlock) :=
  opsListMarkets_count_bound_and_apy (.ok ["Ta1"]) exFetchOk (some 1) 4
    (by norm_num) rfl

/-- C6 counterexample: with default limit 1 and three markets, an explicit
`limit = 0` fetches all three markets while omitting the limit fetches one —
so `limit ≤ 0` is not treated as "no explicit limit". -/
theorem mainListMarkets_zero_limit_counterexample :
    mainResultCount
      (mainListMarkets (.ok ["Ta1", "Ta2", "Ta3"]) exFetchOk none 0 (some 0) 1 120) =
      some 3 ∧
    mainResultCount
      (mainListMarkets (.ok ["Ta1", "Ta2", "Ta3"]) exFetchOk none 0 none 1 120) =
      some 1 ∧
    (3 : ℕ) ≠ 1 := ⟨rfl, rfl, by decide⟩

/-- C6 (amended): only a `None`/omitted limit falls back to the configured
default; a nonpositive explicit limit is not defaulted — `main.py` processes
the full market list (`limit = len(addrs)`), and `justlend_ops` applies
Python slice semantics (`limit = 0` yields no markets, a negative limit
drops trailing markets). -/
theorem listMarkets_limit_defaulting
    (getAll : Except Err (List String)) (fetch : String → Except Err MarketRaw)
    (cache : Option (ℚ × Payload)) (now : ℚ) (d : ℤ) (ttl : ℚ) (maxMarkets : ℤ) :
    mainListMarkets getAll fetch cache now none d ttl =
      mainListMarkets getAll fetch cache now (some d) d ttl ∧
    opsListMarkets getAll fetch none maxMarkets =
      opsListMarkets getAll fetch (some maxMarkets) maxMarkets ∧
    (∀ addrs limit, limit ≤ 0 →
      (mainListMarkets (.ok addrs) fetch none now (some limit) d ttl).result =
        .ok (freshPayload fetch addrs)) ∧
    (∀ addrs limit, limit ≤ 0 →
      (opsListMarkets (.ok addrs) fetch (some limit) maxMarkets).markets =
        fetchedMarkets fetch mkOpsEntry (pyTake addrs limit)) ∧
    (∀ addrs, (opsListMarkets (.ok addrs) fetch (some 0) maxMarkets).count = 0) := by
  refine ⟨rfl, rfl, ?_, ?_, ?_⟩
  · intro addrs limit hlim
    have hcg : cacheGet none now ttl = none := rfl
    have hnot : ¬(0 : ℤ) < limit := by omega
    simp only [mainListMarkets, hcg, Option.getD, mainListFresh, if_neg hnot]
  · intro addrs limit _
    rfl
  · intro addrs
    have h0 : pyTake addrs (0 : ℤ) = [] := by
      rw [pyTake_nonneg _ _ le_rfl]
      simp
    simp only [opsListMarkets, Option.getD, h0, fetchedMarkets, List.filterMap_nil,
      List.length_nil]

/-- Witness for C6 (amended), instantiated at concrete oracles and limits. -/
theorem listMarkets_limit_defaulting_witness :
    mainListMarkets (.ok exAddrs6) exFetchOk none 0 none 6 120 =
      mainListMarkets (.ok exAddrs6) exFetchOk none 0 (some 6) 6 120 ∧
    opsListMarkets (.ok exAddrs6) exFetchOk none 4 =
      opsListMarkets (.ok exAddrs6) exFetchOk (some 4) 4 ∧
    (∀ addrs limit, limit ≤ 0 →
      (mainListMarkets (.ok addrs) exFetchOk none 0 (some limit) 6 120).result =
        .ok (freshPayload exFetchOk addrs)) ∧
    (∀ addrs limit, limit ≤ 0 →
      (opsListMarkets (.ok addrs) exFetchOk (some limit) 4).markets =
        fetchedMarkets exFetchOk mkOpsEntry (pyTake addrs limit)) ∧
    (∀ addrs, (opsListMarkets (.ok addrs) exFetchOk (some 0) 4).count = 0) :=
  listMarkets_limit_defaulting (.ok exAddrs6) exFetchOk none 0 6 120 4

theorem detailLoop_all_nonmatch (getSym : String → Except Err String)
    (getRates : String → Except Err RatesRaw) (symbol : String) :
    ∀ l : List String,
      (∀ a ∈ l, ∃ s, getSym a = .ok s ∧ pyLower s ≠ pyLower symbol) →
      detailLoop getSym getRates symbol l = .ok none
  | [], _ => rfl
  | x :: xs, h => by
    obtain ⟨s, hs, hne⟩ := h x (by simp)
    have hxs := detailLoop_all_nonmatch getSym getRates symbol xs
      (fun a ha => h a (by simp [ha]))
    simp [detailLoop, hs, hne, hxs]

theorem detailLoop_append_nonmatch (getSym : String → Except Err String)
    (getRates : String → Except Err RatesRaw) (symbol : String) (rest : List String) :
    ∀ l : List String,
      (∀ a ∈ l, ∃ s, getSym a = .ok s ∧ pyLower s ≠ pyLower symbol) →
      detailLoop getSym getRates symbol (l ++ rest) =
        detailLoop getSym getRates symbol rest
  | [], _ => rfl
  | x :: xs, h => by
    obtain ⟨s, hs, hne⟩ := h x (by simp)
    have hxs := detailLoop_append_nonmatch getSym getRates symbol rest xs
      (fun a ha => h a (by simp [ha]))
    simp [detailLoop, hs, hne, hxs]

/-- C7: `market_detail(symbol)` scans the full market list; if no market's
symbol matches case-insensitively it returns a structured negative payload
with `success = false` and `error_type = "MarketNotFound"` (no exception),
and if some market matches, the first matching market's detail record is
returned as a success payload. -/
theorem opsMarketDetail_not_found_or_first_match (getSym : String → Except Err String)
    (getRates : String → Except Err RatesRaw) (symbol : String) :
    (∀ addrs, (∀ a ∈ addrs, ∃ s, getSym a = .ok s ∧ pyLower s ≠ pyLower symbol) →
      (opsMarketDetail (.ok addrs) getSym getRates symbol).success = false ∧
      (opsMarketDetail (.ok addrs) getSym getRates symbol).errorType =
        some "MarketNotFound" ∧
      (opsMarketDetail (.ok addrs) getSym getRates symbol).market = none) ∧
    (∀ l1 addrM symM r l2,
      (∀ a ∈ l1, ∃ s, getSym a = .ok s ∧ pyLower s ≠ pyLower symbol) →
      getSym addrM = .ok symM → pyLower symM = pyLower symbol →
      getRates addrM = .ok r →
      (opsMarketDetail (.ok (l1 ++ addrM :: l2)) getSym getRates symbol).success = true ∧
      (opsMarketDetail (.ok (l1 ++ addrM :: l2)) getSym getRates symbol).market =
        some (detailEntry addrM symM r)) := by
  constructor
  · intro addrs hall
    have hloop := detailLoop_all_nonmatch getSym getRates symbol addrs hall
    simp [opsMarketDetail, hloop]
  · intro l1 addrM symM r l2 hl1 hsym hmatch hrates
    have hloop : detailLoop getSym getRates symbol (l1 ++ addrM :: l2) =
        .ok (some (detailEntry addrM symM r)) := by
      rw [detailLoop_append_nonmatch getSym getRates symbol (addrM :: l2) l1 hl1]
      simp [detailLoop, hsym, hmatch, hrates]
    simp [opsMarketDetail, hloop]

/-- Witness for C7: the universe `{JBTC, JUSDT, JBTC}`; symbol `"zzz"` is not
found and yields `MarketNotFound`, while `"jusdt"` matches `JUSDT`
case-insensitively at the second address. -/
theorem opsMarketDetail_not_found_or_first_match_witness :
    ((opsMarketDetail (.ok ["Ta"]) exGetSym exGetRates "zzz").success = false ∧
      (opsMarketDetail (.ok ["Ta"]) exGetSym exGetRates "zzz").errorType =
        some "MarketNotFound" ∧
      (opsMarketDetail (.ok ["Ta"]) exGetSym exGetRates "zzz").market = none) ∧
    ((opsMarketDetail (.ok (["Ta"] ++ "Tb" :: ["Tc"])) exGetSym exGetRates
        "jusdt").success = true ∧
      (opsMarketDetail (.ok (["Ta"] ++ "Tb" :: ["Tc"])) exGetSym exGetRates
        "jusdt").market = some (detailEntry "Tb" "JUSDT" ratesZero)) :=
  ⟨(opsMarketDetail_not_found_or_first_match exGetSym exGetRates "zzz").1 ["Ta"]
    (fun a ha => ⟨"JBTC", by
      simp only [List.mem_singleton] at ha
      subst ha
      exact ⟨rfl, by decide⟩⟩),
   (opsMarketDetail_not_found_or_first_match exGetSym exGetRates "jusdt").2 ["Ta"]
    "Tb" "JUSDT" ratesZero ["Tc"]
    (fun a ha => ⟨"JBTC", by
      simp only [List.mem_singleton] at ha
      subst ha
      exact ⟨rfl, by decide⟩⟩)
    rfl (by decide) rfl⟩

theorem filterMap_eq_map_filter {α β : Type} (f : α → Option β) (dflt : β) :
    ∀ l : List α,
      l.filterMap f = (l.filter fun x => (f x).isSome).map fun x => (f x).getD dflt
  | [] => rfl
  | x :: xs => by
    cases hfx : f x with
    | none =>
      simp [List.filterMap_cons, List.filter_cons, hfx,
        filterMap_eq_map_filter f dflt xs]
    | some b =>
      simp [List.filterMap_cons, List.filter_cons, hfx,
        filterMap_eq_map_filter f dflt xs]

/-- C8: validation of a parsed list-shaped planner response keeps exactly the
dict items whose `type` is a key of the fixed tool catalog, drops every
other item (non-dicts and unknown/missing types, which therefore never reach
execution), and preserves the original relative order of the kept items:
the plan is the order-preserving `filter` + extraction `map` of the input. -/
theorem validatePlan_drops_unknown_keeps_order (items : List JItem) :
    validatePlan items =
      ((items.filter fun it => (validateItem it).isSome).map
        fun it => (validateItem it).getD ("", [])) ∧
    (∀ ty args, (validateItem (JItem.dict ty args)).isSome = true ↔
      ∃ t, ty = some t ∧ t ∈ TOOL_SPEC_keys) ∧
    validateItem JItem.nondict = none := by
  refine ⟨filterMap_eq_map_filter validateItem ("", []) items, ?_, rfl⟩
  intro ty args
  cases ty with
  | none => simp [validateItem]
  | some t =>
    by_cases ht : t ∈ TOOL_SPEC_keys
    · simp [validateItem, ht]
    · simp [validateItem, ht]

/-- C9 counterexample: a successful markets listing makes `decide_widget`
return widget type `"justlend"` (with `data.view = "list"`), which is not
among the five types `{idle, wallet, justlend-list, justlend-detail,
justlend-user}` stated by the claim. -/
theorem decide_widget_type_counterexample :
    (decide_widget "trustlender_list_markets" exListToolResult).ty = "justlend" ∧
    (decide_widget "trustlender_list_markets" exListToolResult).data =
      WData.view "list" exListRDict ∧
    "justlend" ∉ ["idle", "wallet", "justlend-list", "justlend-detail",
      "justlend-user"] := by
  refine ⟨?_, ?_, by decide⟩ <;>
    simp [decide_widget, exListToolResult, exListRDict]

/-- C9 (amended): `decide_widget` is a pure function of
`(tool_name, tool_result)` returning a `{type, data}` pair with
`type ∈ {idle, wallet, justlend}`; the three JustLend tools share type
`"justlend"` and are distinguished by `data.view ∈ {list, detail, user}`;
the selector returns `idle` whenever the result is falsy/non-dict or lacks
the expected success markers for the tool. -/
theorem decide_widget_types_and_idle (tool : String) (res : ToolResult) :
    ((decide_widget tool res).ty = "idle" ∨ (decide_widget tool res).ty = "wallet" ∨
      (decide_widget tool res).ty = "justlend") ∧
    ((decide_widget tool res).ty = "justlend" →
      ∃ v r, (decide_widget tool res).data = WData.view v r ∧
        (v = "list" ∨ v = "detail" ∨ v = "user")) ∧
    decide_widget tool ToolResult.invalid = { ty := "idle", data := WData.nodata } ∧
    (∀ r, res = ToolResult.dict r →
      (tool = "trustlender_list_markets" → ¬(r.success = true ∧ r.markets ≠ []) →
        decide_widget tool res = { ty := "idle", data := WData.nodata }) ∧
      (tool = "trustlender_market_detail" → ¬(r.success = true ∧ r.market.isSome = true) →
        decide_widget tool res = { ty := "idle", data := WData.nodata }) ∧
      (tool = "trustlender_user_position" → r.success = false →
        decide_widget tool res = { ty := "idle", data := WData.nodata })) := by
  have hwc : ∀ (t : String) (b : Bool), t = "trustlender_list_markets" ∨
      t = "trustlender_market_detail" ∨ t = "trustlender_user_position" →
      ¬((t = "wallet_connect" ∨ t = "wallet_fetch_balance") ∧ b = true) := by
    rintro t b ht ⟨hor, _⟩
    rcases ht with ht | ht | ht <;> subst ht <;>
      rcases hor with h | h <;> exact absurd h (by decide)
  cases res with
  | invalid =>
    refine ⟨Or.inl rfl, ?_, rfl, ?_⟩
    · intro h
      have hidle : decide_widget tool ToolResult.invalid =
          { ty := "idle", data := WData.nodata } := rfl
      rw [hidle] at h
      exact absurd h (by decide)
    · intro r hr
      exact ToolResult.noConfusion hr
  | dict r =>
    refine ⟨?_, ?_, rfl, ?_⟩
    · simp only [decide_widget]
      split_ifs <;> first
        | exact Or.inl rfl
        | exact Or.inr (Or.inl rfl)
        | exact Or.inr (Or.inr rfl)
    · simp only [decide_widget]
      split_ifs <;> intro hty <;> simp at hty ⊢
    · intro r' hr'
      rw [ToolResult.dict.injEq] at hr'
      subst hr'
      refine ⟨?_, ?_, ?_⟩
      · intro htool hmark
        subst htool
        simp only [decide_widget]
        rw [if_neg (hwc _ _ (Or.inl rfl)), if_neg (by decide), if_pos trivial,
          if_neg hmark]
      · intro htool hmark
        subst htool
        simp only [decide_widget]
        rw [if_neg (hwc _ _ (Or.inr (Or.inl rfl))), if_neg (by decide),
          if_neg (by decide), if_pos trivial, if_neg hmark]
      · intro htool hsucc
        subst htool
        simp only [decide_widget]
        rw [if_neg (hwc _ _ (Or.inr (Or.inr rfl))), if_neg (by decide),
          if_neg (by decide), if_neg (by decide), if_pos trivial,
          if_neg (by rw [hsucc]; exact Bool.false_ne_true)]

/-- Witness for C9 (amended), at the successful markets listing input. -/
theorem decide_widget_types_and_idle_witness :
    (((decide_widget "trustlender_list_markets" exListToolResult).ty = "idle" ∨
      (decide_widget "trustlender_list_markets" exListToolResult).ty = "wallet" ∨
      (decide_widget "trustlender_list_markets" exListToolResult).ty = "justlend")) ∧
    ((decide_widget "trustlender_list_markets" exListToolResult).ty = "justlend" →
      ∃ v r, (decide_widget "trustlender_list_markets" exListToolResult).data =
        WData.view v r ∧ (v = "list" ∨ v = "detail" ∨ v = "user")) :=
  ⟨(decide_widget_types_and_idle "trustlender_list_markets" exListToolResult).1,
   (decide_widget_types_and_idle "trustlender_list_markets" exListToolResult).2.1⟩

theorem mainListMarkets_hit (getAll : Except Err (List String))
    (fetch : String → Except Err MarketRaw) (ts : ℚ) (p : Payload) (now : ℚ)
    (lim : Option ℤ) (d : ℤ) (ttl : ℚ)
    (htt : now - ts ≤ ttl) (hle : lim.getD d ≤ (p.count : ℤ)) :
    mainListMarkets getAll fetch (some (ts, p)) now lim d ttl =
      { result := .ok (slicePayload p (lim.getD d)), fromCache := true,
        cacheAfter := some (ts, p) } := by
  have hcg : cacheGet (some (ts, p)) now ttl = some p := by
    simp [cacheGet, htt]
  simp only [mainListMarkets, hcg, if_pos hle]

/-- C10: every non-cached `list_markets` call that reaches the success path
overwrites the single process-wide cache slot with exactly the payload it
returns — including a partial or empty markets list when per-market fetches
failed — and for the following TTL window any request whose (defaulted)
limit is at most that count is served the sliced cached data without
consulting the remote oracles at all (the second call's oracles are
universally quantified). -/
theorem mainListMarkets_unconditional_cache_overwrite
    (getAll : Except Err (List String)) (fetch : String → Except Err MarketRaw)
    (cache : Option (ℚ × Payload)) (now : ℚ) (limitArg : Option ℤ) (d : ℤ) (ttl : ℚ)
    (addrs : List String) (hga : getAll = .ok addrs)
    (hmiss : (mainListMarkets getAll fetch cache now limitArg d ttl).fromCache = false) :
    ∃ p, (mainListMarkets getAll fetch cache now limitArg d ttl).result = .ok p ∧
      (mainListMarkets getAll fetch cache now limitArg d ttl).cacheAfter =
        some (now, p) ∧
      p.count = p.markets.length ∧
      ∀ (getAll2 : Except Err (List String)) (fetch2 : String → Except Err MarketRaw)
        (t2 : ℚ) (lim2 : Option ℤ), t2 - now ≤ ttl → lim2.getD d ≤ (p.count : ℤ) →
        (mainListMarkets getAll2 fetch2 (some (now, p)) t2 lim2 d ttl).fromCache =
          true ∧
        (mainListMarkets getAll2 fetch2 (some (now, p)) t2 lim2 d ttl).result =
          .ok (slicePayload p (lim2.getD d)) := by
  subst hga
  have hfresh : mainListMarkets (.ok addrs) fetch cache now limitArg d ttl =
      mainListFresh (.ok addrs) fetch cache now (limitArg.getD d) := by
    cases hcg : cacheGet cache now ttl with
    | none => simp only [mainListMarkets, hcg]
    | some cached =>
      by_cases hle : limitArg.getD d ≤ (cached.count : ℤ)
      · exfalso
        simp only [mainListMarkets, hcg, if_pos hle] at hmiss
        simp at hmiss
      · simp only [mainListMarkets, hcg, if_neg hle]
  rw [hfresh]
  refine ⟨freshPayload fetch
    (if 0 < limitArg.getD d then pyTake addrs (limitArg.getD d) else addrs),
    rfl, rfl, rfl, ?_⟩
  intro getAll2 fetch2 t2 lim2 htt2 hle2
  rw [mainListMarkets_hit getAll2 fetch2 now _ t2 lim2 d ttl htt2 hle2]
  exact ⟨rfl, rfl⟩

/-- Witness for C10: one market address whose fetch always fails, so the
fresh call caches an empty payload with `count = 0`; a request with
`limit = 0` in the TTL window is then served from the cache even though its
remote oracles always fail. -/
theorem mainListMarkets_unconditional_cache_overwrite_witness :
    ∃ p, (mainListMarkets (.ok ["Ta1"]) exFetchErr none 0 (some 1) 6 120).result =
        .ok p ∧
      (mainListMarkets (.ok ["Ta1"]) exFetchErr none 0 (some 1) 6 120).cacheAfter =
        some (0, p) ∧
      p.count = p.markets.length ∧
      ∀ (getAll2 : Except Err (List String)) (fetch2 : String → Except Err MarketRaw)
        (t2 : ℚ) (lim2 : Option ℤ), t2 - 0 ≤ 120 → lim2.getD 6 ≤ (p.count : ℤ) →
        (mainListMarkets getAll2 fetch2 (some (0, p)) t2 lim2 6 120).fromCache =
          true ∧
        (mainListMarkets getAll2 fetch2 (some (0, p)) t2 lim2 6 120).result =
          .ok (slicePayload p (lim2.getD 6)) :=
  mainListMarkets_unconditional_cache_overwrite (.ok ["Ta1"]) exFetchErr none 0
    (some 1) 6 120 ["Ta1"] rfl rfl

end Slate
